import Mathlib

/-!
# Verification of the snap_clone extraction core

Shallow embedding of the resilient extraction engine of the snap_clone
repository: the eight-strategy video URL resolver (`getVideoUrl` in the
enhanced ContentModal component), the per-category tab-content normalizer
(`fetchTabContentCallback` in Tabs.jsx), the request-id stale-response
guard, the field-extraction fallback cascades, and the response cache.
DOM queries are modelled as pre-computed query results carried by the
document structures; all decision logic operating on those results is
translated directly from the JavaScript source.
-/

namespace SnapClone

/-! ## JavaScript value model

Values produced by `JSON.parse`: numbers are modelled as integers
(no numeric field of the repository is fractional). Objects are
association lists in insertion order with unique keys, which is what
`JSON.parse` produces (later duplicates overwrite earlier ones). -/

inductive JsValue where
  | null
  | bool (b : Bool)
  | num (n : Int)
  | str (s : String)
  | arr (elems : List JsValue)
  | obj (fields : List (String × JsValue))
deriving Inhabited

/-- Property lookup on a parsed object: `o[k]`, `undefined` mapped to `none`. -/
def jsLookup (fields : List (String × JsValue)) (k : String) : Option JsValue :=
  (fields.find? (fun f => f.1 = k)).map (fun f => f.2)

/-- JavaScript truthiness of a value. -/
def jsvTruthy : JsValue → Bool
  | .null => false
  | .bool b => b
  | .num n => n ≠ 0
  | .str s => s ≠ ""
  | .arr _ => true
  | .obj _ => true

/-- Truthiness of a possibly-undefined value (`none` = `undefined`). -/
def jsOptTruthy : Option JsValue → Bool
  | none => false
  | some v => jsvTruthy v

/-- `a || b` on possibly-undefined values. -/
def jsOrV (a b : Option JsValue) : Option JsValue :=
  if jsOptTruthy a then a else b

/-- Is `v` the string `s` (JavaScript strict equality against a string)? -/
def isStrEq (v : Option JsValue) (s : String) : Bool :=
  match v with
  | some (.str t) => t = s
  | _ => false

/-- `a?.k` property access: only objects expose ordinary properties. -/
def jsGet (a : Option JsValue) (k : String) : Option JsValue :=
  match a with
  | some (.obj fields) => jsLookup fields k
  | _ => none

/-- `String(v)` coercion as used by template literals (`${v}`). The
elements of an array are joined by commas with `null` rendered empty,
as `Array.prototype.toString` does. -/
def jsToStr : JsValue → String
  | .null => "null"
  | .bool b => cond b "true" "false"
  | .num n => toString n
  | .str s => s
  | .obj _ => "[object Object]"
  | .arr xs => String.intercalate "," (xs.attach.map fun ⟨v, h⟩ =>
      match v with
      | .null => ""
      | w => jsToStr w)
termination_by v => sizeOf v
decreasing_by
  all_goals simp_wf
  all_goals (have hlt := List.sizeOf_lt_of_mem h; omega)

/-- `${v}` for a possibly-undefined value. -/
def jsOptToStr : Option JsValue → String
  | none => "undefined"
  | some v => jsToStr v

/-! ## String helpers (JavaScript string methods)

All of these are implemented by structural recursion over the
character list of the string, so that every definition evaluates inside
the kernel. -/

/-- Does `pat` occur as a contiguous run inside `l`? (The empty pattern
occurs everywhere, as for JavaScript `includes`.) -/
def listInfix (pat : List Char) : List Char → Bool
  | [] => pat.isEmpty
  | l@(_ :: rest) => pat.isPrefixOf l || listInfix pat rest

/-- `s.includes(pat)`. -/
def strContains (s pat : String) : Bool :=
  listInfix pat.data s.data

/-- `s.toLowerCase()` (ASCII case folding). -/
def lowerStr (s : String) : String :=
  String.mk (s.data.map Char.toLower)

/-- `s.endsWith(pat)`. -/
def endsWithStr (s pat : String) : Bool :=
  pat.data.isSuffixOf s.data

/-- `s.startsWith(pat)`. -/
def startsWithStr (s pat : String) : Bool :=
  pat.data.isPrefixOf s.data

/-- `s.trim()`. -/
def jsTrim (s : String) : String :=
  String.mk ((s.data.dropWhile Char.isWhitespace).reverse.dropWhile Char.isWhitespace).reverse

/-- `s.slice(0, n)`. -/
def takeStr (s : String) (n : Nat) : String :=
  String.mk (s.data.take n)

/-- Remove the last `n` characters. -/
def dropRightStr (s : String) (n : Nat) : String :=
  String.mk (s.data.take (s.data.length - n))

/-- `a || b` on possibly-undefined strings (`none` = `null`/`undefined`,
the empty string is falsy). Returns the second operand unchanged when the
first is falsy, as JavaScript does. -/
def jsOr (a b : Option String) : Option String :=
  match a with
  | some s => if s ≠ "" then some s else b
  | none => b

/-- Truthiness of a possibly-undefined string. -/
def jsTruthy : Option String → Bool
  | none => false
  | some s => s ≠ ""

/-- `s.replace(pat, rep)` with a *string* pattern replaces only the first
occurrence (unlike Lean's `String.replace`, which replaces all). -/
def replaceFirstAux (pat rep : List Char) : List Char → List Char
  | [] => []
  | c :: rest =>
      if pat.isPrefixOf (c :: rest) then rep ++ (c :: rest).drop pat.length
      else c :: replaceFirstAux pat rep rest

/-- See above; an empty pattern matches at position 0, as in JavaScript. -/
def replaceFirst (s pat rep : String) : String :=
  if pat = "" then rep ++ s
  else String.mk (replaceFirstAux pat.data rep.data s.data)

/-! ## Video URL Resolver (enhanced `getVideoUrl` of the ContentModal component)

The resolver works on a fetched profile/spotlight page. DOM lookups
(`querySelector`, attribute enumeration, regular-expression scans over
script bodies) are modelled as pre-computed query results stored in
`PageDoc`; every decision made *on* those results is translated from the
source. Network activity (the page fetch and the HEAD probes of
strategies 4 and 6, the manifest fetch of strategy 8) is an oracle
`NetEnv`. -/

/-- Does `l` contain `pat ++ "?"` followed only by non-newline characters?
This is the `(\?.*)?$` half of the media-extension regular expression:
`.*` must reach the end of the string and cannot cross a newline. -/
def extThenQuery (pat : List Char) : List Char → Bool
  | [] => false
  | c :: rest =>
      ((pat ++ ['?']).isPrefixOf (c :: rest)
        && ((c :: rest).drop (pat.length + 1)).all (fun d => d ≠ '\n'))
      || extThenQuery pat rest

/-- `value.match(/\.(mp4|webm|mov|m4v)(\?.*)?$/i)` is truthy: the string
ends in one of the four extensions, optionally followed by a query part. -/
def extQueryMatch (v : String) : Bool :=
  let l := lowerStr v
  ["mp4", "webm", "mov", "m4v"].any fun ext =>
    endsWithStr l ("." ++ ext) || extThenQuery ("." ++ ext).data l.data

/-- The 23 video-URL-bearing property names scanned by strategy 1,
in source order. -/
def videoProps : List String :=
  ["videoUrl", "contentUrl", "url", "src", "href",
   "mediaUrl", "playbackUrl", "streamUrl", "hlsUrl", "dashUrl",
   "videoPlaybackUrl", "directUrl", "cdnUrl", "assetUrl",
   "mp4Url", "webmUrl", "videoSrc", "videoHref", "playUrl",
   "media_url", "video_url", "stream_url", "playback_url"]

/-- Keys excluded (after lowercasing) from the recursive descent of
strategy 1. -/
def excludedKeys : List String := ["thumbnail", "poster", "preview", "icon"]

/-- Strategy 1's URL validation: media-file extension (with optional
query string), known CDN host, or a snapchat.com media path. -/
def m1Validates (v : String) : Bool :=
  extQueryMatch v
  || strContains v "cf-st.sc-cdn.net"
  || strContains v "snap-dev.storage.googleapis.com"
  || (strContains v "snapchat.com/" && strContains v "media")

/-- Strategy 1's confidence score: `'high'` (`true`) when the value
contains `.mp4`, `'medium'` (`false`) otherwise. -/
def isHighConf (v : String) : Bool := strContains v ".mp4"

/-- Candidate URLs found by `deepVideoSearch` at the given remaining
recursion budget, paired with their confidence. The source guards with
`depth > 10` on entry and recurses with `depth + 1`; a call at depth `d`
therefore has budget `11 - d`, and budget `0` returns nothing. Only
arrays and objects are walked (`!obj || typeof obj !== 'object'`); the
property scan finds nothing on arrays because `obj[prop]` is undefined
there. The `for..in` recursion skips keys whose lowercasing is in
`excludedKeys` and appends its finds after the property-scan finds.
Keys are visited in insertion order (JavaScript would move integer-like
keys to the front; the payloads in scope do not use such keys). -/
def deepSearchFuel : Nat → JsValue → List (String × Bool)
  | 0, _ => []
  | fuel + 1, .arr xs => xs.flatMap fun x => deepSearchFuel fuel x
  | fuel + 1, .obj kvs =>
      (videoProps.filterMap fun prop =>
        match jsLookup kvs prop with
        | some (.str s) => if s ≠ "" && m1Validates s then some (s, isHighConf s) else none
        | _ => none)
      ++ kvs.flatMap fun kv =>
          if excludedKeys.contains (lowerStr kv.1) then []
          else deepSearchFuel fuel kv.2
  | _ + 1, _ => []

/-- `deepVideoSearch(obj, path, depth)` (the `path` argument only feeds
debug logging and is dropped). -/
def deepVideoSearch (v : JsValue) (depth : Nat) : List (String × Bool) :=
  deepSearchFuel (11 - depth) v

/-- Strategy 1's selection among the candidates found in the parsed
`__NEXT_DATA__` payload: `sort` by the comparator
`(b high ? 1 : 0) - (a high ? 1 : 0)` — a stable sort (high-confidence
candidates first, original order preserved within each class) — then the
first element; no candidate means the strategy falls through. -/
def pickNextDataUrl (j : JsValue) : Option String :=
  let cands := deepVideoSearch j 0
  match cands.filter (fun c => c.2), cands.filter (fun c => !c.2) with
  | [], [] => none
  | [], c :: _ => some c.1
  | c :: _, _ => some c.1

/-- A fetched and parsed page, as seen through the DOM queries the
resolver performs. Each field is the pre-computed result of the
corresponding query; the decision logic applied to these results is
translated from the source.

* `nextData`: `none` when `doc.querySelector('#__NEXT_DATA__')` finds no
  script; `some none` when the script exists but `JSON.parse` of its text
  throws (caught locally); `some (some j)` on a successful parse.
* `mediaElems`: for each node of `querySelectorAll('video, source')`, its
  attribute list (`getAttribute` results).
* `bgUrls`: the URL captured by the inline-style regular expression
  `background[^:]*:\s*url\(...\)` for each node of
  `querySelectorAll('*[style*="background"]')` whose style matches.
* `apolloBlobs`: for each inline script mentioning `__APOLLO_STATE__` or
  `apolloState`, the result of extracting the state object with the
  source's regular expression and `JSON.parse`-ing it (`none` when the
  extraction or the parse fails — failures are caught locally).
* `scriptUrlHits`: the capture groups produced by strategy 7's seven
  video-URL regular expressions over all plain inline scripts, in scan
  order (script-major, then pattern, then match position).
* `manifestUrls`: the `.m3u8`/`.mpd` URLs captured by strategy 8's two
  manifest regular expressions over the same scripts, in scan order. -/
structure PageDoc where
  nextData : Option (Option JsValue)
  mediaElems : List (List (String × String))
  bgUrls : List String
  apolloBlobs : List (Option JsValue)
  scriptUrlHits : List String
  manifestUrls : List String

/-- The network as the resolver sees it.

* `fetchPage`: proxied page fetch; `none` models a thrown network error,
  a non-success status (the source converts it into a thrown `Error`), or
  a failure while reading the body — all land in the outer `catch`.
* `headProbe`: a `HEAD` request; `none` models a thrown fetch, otherwise
  `response.ok` and the `content-type` header (`none` when absent).
* `fetchText`: a manifest fetch; `some body` only when the fetch
  succeeded with `response.ok`. -/
structure NetEnv where
  fetchPage : String → Option PageDoc
  headProbe : String → Option (Bool × Option String)
  fetchText : String → Option String

/-- Errors that can be raised inside the resolver's `try` block. -/
inductive ResolveErr where
  | fetchFailed
  | invalidSelector
deriving DecidableEq

/-- Strategy 1: deep `__NEXT_DATA__` analysis. Falls through when the
script is absent, its JSON does not parse, or no candidate is found. -/
def method1 (d : PageDoc) : Option String :=
  match d.nextData with
  | none => none
  | some none => none
  | some (some j) => pickNextDataUrl j

/-- Strategy 2: data-attribute scan. The source's very first step is
`doc.querySelectorAll('*[data-*]')`, but `*[data-*]` is not a valid CSS
selector — an attribute selector may not contain `*` inside the
attribute name — so `querySelectorAll` throws a `SyntaxError`
`DOMException` before any element is inspected. The strategy therefore
always raises, and the exception is only stopped by the resolver's outer
`catch`. -/
def method2 (_ : PageDoc) : Except ResolveErr (Option String) :=
  .error .invalidSelector

/-- The source attributes checked on media elements by strategy 3,
in source order. -/
def srcAttrNames : List String :=
  ["src", "data-src", "data-video-src", "data-url", "data-media-url"]

/-- Strategy 3's URL validation. -/
def m3Validates (v : String) : Bool :=
  strContains v ".mp4"
  || strContains v "cf-st.sc-cdn.net"
  || strContains v "googleapis.com"

/-- Attribute lookup on a modelled element (`getAttribute`; `none` when
the attribute is absent). -/
def attrOf (attrs : List (String × String)) (a : String) : Option String :=
  (attrs.find? (fun p => p.1 = a)).map (fun p => p.2)

/-- Strategy 3: inspect `video` and `source` elements, trying the five
source attributes on each element in order and returning the first
truthy, validated value. -/
def method3 (d : PageDoc) : Option String :=
  d.mediaElems.findSome? fun el =>
    srcAttrNames.findSome? fun a =>
      match attrOf el a with
      | some v => if v ≠ "" && m3Validates v then some v else none
      | none => none

/-- `/\.(jpg|jpeg|png|webp)$/i` replaced by `.mp4`. -/
def swapImageExt (s : String) : String :=
  let l := lowerStr s
  if endsWithStr l ".jpg" then dropRightStr s 4 ++ ".mp4"
  else if endsWithStr l ".jpeg" then dropRightStr s 5 ++ ".mp4"
  else if endsWithStr l ".png" then dropRightStr s 4 ++ ".mp4"
  else if endsWithStr l ".webp" then dropRightStr s 5 ++ ".mp4"
  else s

/-- `/poster|thumb/g` replaced by `video`. Sequential whole-string
replacement coincides with the alternating global regex here because
neither literal can be created by replacing the other with `video`. -/
def posterToVideo (s : String) : String :=
  (s.replace "poster" "video").replace "thumb" "video"

/-- Strategy 4: derive a video URL from a background poster/thumb image
and accept it only if a proxied `HEAD` probe answers OK. A thrown probe
is swallowed (`catch` – continue with the remaining elements). -/
def method4 (env : NetEnv) (d : PageDoc) : Option String :=
  d.bgUrls.findSome? fun bg =>
    if strContains bg "poster" || strContains bg "thumb" then
      let vurl := swapImageExt (posterToVideo bg)
      match env.headProbe (replaceFirst vurl "https://www.snapchat.com" "/snap") with
      | some (true, _) => some vurl
      | _ => none
    else none

/-- The recursive search of strategy 5 over a parsed Apollo state blob:
`for..in` enumeration, returning the first string value containing
`.mp4` or the CDN host, recursing into nested objects and arrays. -/
def apolloSearch : JsValue → Option String
  | .obj kvs => kvs.attach.findSome? fun ⟨⟨k, v⟩, h⟩ =>
      match v with
      | .str s =>
          if strContains s ".mp4" || strContains s "cf-st.sc-cdn.net" then some s else none
      | .obj kvs2 => apolloSearch (.obj kvs2)
      | .arr xs2 => apolloSearch (.arr xs2)
      | _ => none
  | .arr xs => xs.attach.findSome? fun ⟨x, h⟩ =>
      match x with
      | .str s =>
          if strContains s ".mp4" || strContains s "cf-st.sc-cdn.net" then some s else none
      | .obj kvs2 => apolloSearch (.obj kvs2)
      | .arr xs2 => apolloSearch (.arr xs2)
      | _ => none
  | _ => none
termination_by v => sizeOf v
decreasing_by
  all_goals simp_wf
  all_goals (have h1 := List.sizeOf_lt_of_mem h; simp at h1 ⊢; omega)

/-- Strategy 5: search each extracted Apollo state blob. -/
def method5 (d : PageDoc) : Option String :=
  d.apolloBlobs.findSome? fun blob => blob.bind apolloSearch

/-- `url.match(/\/spotlight\/([^/?]+)/)`: the first occurrence of
`/spotlight/` that is followed by at least one character other than `/`
and `?`; the capture runs to the next `/` or `?`. -/
def spotlightIdFrom : List Char → Option String
  | [] => none
  | c :: rest =>
      (if "/spotlight/".data.isPrefixOf (c :: rest) then
        let cap := ((c :: rest).drop "/spotlight/".length).takeWhile
          fun d => d ≠ '/' && d ≠ '?'
        if cap.isEmpty then none else some (String.mk cap)
      else none).orElse fun _ => spotlightIdFrom rest

/-- The five CDN templates probed by strategy 6, in source order. -/
def cdnTemplates (videoId : String) : List String :=
  ["https://cf-st.sc-cdn.net/d/" ++ videoId ++ ".mp4",
   "https://cf-st.sc-cdn.net/d/" ++ videoId ++ "_720.mp4",
   "https://cf-st.sc-cdn.net/d/" ++ videoId ++ "_1080.mp4",
   "https://snap-dev.storage.googleapis.com/spotlight/" ++ videoId ++ ".mp4",
   "https://snap-dev.storage.googleapis.com/spotlight/" ++ videoId ++ "/video.mp4"]

/-- Strategy 6: extract the content id from the canonical URL and probe
the CDN templates; accept the first whose proxied `HEAD` probe is OK
with a `video` content type. A missing content-type header is falsy. -/
def method6 (env : NetEnv) (canonicalUrl : String) : Option String :=
  match spotlightIdFrom canonicalUrl.data with
  | none => none
  | some videoId =>
      (cdnTemplates videoId).findSome? fun pat =>
        let testUrl := replaceFirst
          (replaceFirst pat "https://cf-st.sc-cdn.net" "/snap")
          "https://snap-dev.storage.googleapis.com" "/snap"
        match env.headProbe testUrl with
        | some (true, some ct) => if strContains ct "video" then some pat else none
        | _ => none

/-- Does the remaining input start with `x` followed by a digit, after
skipping leading digits? (Inner part of the `/\d+x\d+/` test.) -/
def dimAfterDigits : List Char → Bool
  | [] => false
  | c :: rest =>
      if c.isDigit then dimAfterDigits rest
      else c = 'x' && (match rest with | d :: _ => d.isDigit | [] => false)

/-- `url.match(/\d+x\d+/)` is truthy: a digit run, `x`, another digit. -/
def hasDimToken : List Char → Bool
  | [] => false
  | c :: rest => (c.isDigit && dimAfterDigits rest) || hasDimToken rest

/-- The exclusion filter strategy 7 applies to each captured URL. -/
def method7Keep (url : String) : Bool :=
  !strContains url "thumb"
  && !strContains url "poster"
  && !strContains url "preview"
  && !hasDimToken url.data
  && url.length > 20

/-- Strategy 7: the first captured script URL passing the filter. The
hex-decoding pass of the source only logs and never returns a URL, so it
does not contribute to the result. -/
def method7 (d : PageDoc) : Option String :=
  d.scriptUrlHits.findSome? fun u => if method7Keep u then some u else none

/-- The first match of `/https?:\/\/[^\s]+\.ts/g` in a manifest body:
from each `http(s)://` occurrence, the longest stretch of non-whitespace
characters ending in `.ts` (greedy `[^\s]+` with backtracking to the
final `.ts`). Only the first match is consumed by the source
(`videoSegments[0]`). -/
def firstTsMatch : List Char → Option String
  | [] => none
  | c :: rest =>
      (if "https://".data.isPrefixOf (c :: rest) || "http://".data.isPrefixOf (c :: rest) then
        let protLen := if "https://".data.isPrefixOf (c :: rest) then 8 else 7
        let run := (c :: rest).takeWhile fun d => !d.isWhitespace
        ((List.range (run.length + 1)).reverse.find? fun k =>
          protLen + 4 ≤ k && ".ts".data.isSuffixOf (run.take k)).map
          fun k => String.mk (run.take k)
      else none).orElse fun _ => firstTsMatch rest

/-- `manifestUrl.substring(0, manifestUrl.lastIndexOf('/'))`. -/
def splitOnChar (sep : Char) : List Char → List (List Char)
  | [] => [[]]
  | c :: rest =>
      match splitOnChar sep rest with
      | [] => [[c]]
      | h :: t => if c = sep then [] :: h :: t else (c :: h) :: t

/-- `manifestUrl.substring(0, manifestUrl.lastIndexOf('/'))` (the empty
string when there is no slash). -/
def upToLastSlash (s : String) : String :=
  match splitOnChar '/' s.data with
  | [] => ""
  | [_] => ""
  | parts => String.mk (List.intercalate ['/'] parts.dropLast)

/-- Strategy 8: fetch each manifest URL through the proxy; for an
`.m3u8` manifest take the first `.ts` segment URL (prefixing the
manifest's base URL when the segment is relative — unreachable here,
since the segment regex anchors on `http`). `.mpd` manifests are fetched
but yield nothing. -/
def method8 (env : NetEnv) (d : PageDoc) : Option String :=
  d.manifestUrls.findSome? fun mu =>
    match env.fetchText (replaceFirst mu "https://www.snapchat.com" "/snap") with
    | none => none
    | some body =>
        if strContains mu ".m3u8" then
          match firstTsMatch body.data with
          | some seg =>
              some (if startsWithStr seg "http" then seg else upToLastSlash mu ++ "/" ++ seg)
          | none => none
        else none

/-- Run the strategies in source order. Each strategy either raises, or
returns a URL (`ok (some u)`: the enclosing function returns at once),
or falls through to the next one; after the last strategy the source
returns `null`. The second component counts how many strategies were
entered before the run stopped. -/
def runCascade : List (Except ResolveErr (Option String)) →
    Except ResolveErr (Option String) × Nat
  | [] => (.ok none, 0)
  | s :: rest =>
      match s with
      | .error e => (.error e, 1)
      | .ok (some u) => (.ok (some u), 1)
      | .ok none => let r := runCascade rest; (r.1, r.2 + 1)

/-- The eight strategies of the enhanced resolver, in priority order. -/
def strategyList (env : NetEnv) (canonicalUrl : String) (d : PageDoc) :
    List (Except ResolveErr (Option String)) :=
  [.ok (method1 d),
   method2 d,
   .ok (method3 d),
   .ok (method4 env d),
   .ok (method5 d),
   .ok (method6 env canonicalUrl),
   .ok (method7 d),
   .ok (method8 env d)]

/-- `snapchatUrl.match(/\.(mp4|webm|ogg|mov)$/i)` is truthy: the
canonical URL is already a direct video URL. -/
def jsDirectVideo (url : String) : Bool :=
  ["mp4", "webm", "ogg", "mov"].any fun ext => endsWithStr (lowerStr url) ("." ++ ext)

/-- `snapchatUrl.replace('https://www.snapchat.com', '/snap')`. -/
def proxyOf (url : String) : String :=
  replaceFirst url "https://www.snapchat.com" "/snap"

/-- The body of the resolver's `try` block: fetch the page through the
proxy (a network error or non-success status is a raise) and run the
strategy cascade. On success the result carries the 1-based index of the
strategy that produced the URL; the second component is the number of
strategies entered. -/
def resolveInner (env : NetEnv) (url : String) :
    Except ResolveErr (Option (Nat × String)) × Nat :=
  match env.fetchPage (proxyOf url) with
  | none => (.error .fetchFailed, 0)
  | some d =>
      match runCascade (strategyList env url d) with
      | (.error e, n) => (.error e, n)
      | (.ok none, n) => (.ok none, n)
      | (.ok (some u), n) => (.ok (some (n, u)), n)

/-- The observable outcome of one `getVideoUrl` call: the returned URL
(tagged with the index of the strategy that produced it, `0` for the
direct-URL shortcut), the number of page fetches performed, and the
number of strategies entered. -/
structure ResolveOut where
  result : Option (Nat × String)
  pageFetches : Nat
  strategiesTried : Nat
deriving DecidableEq

/-- `getVideoUrl(snapchatUrl)` of the enhanced ContentModal component:
falsy URL → `null`; direct video URL → returned unchanged with no fetch;
URL containing `snapchat.com` → fetch the page and run the cascade, the
outer `catch` turning every raise (fetch failure, the strategy-2
selector `SyntaxError`) into `null`; any other URL → `null` with no
fetch. -/
def getVideoUrlT (env : NetEnv) (url : String) : ResolveOut :=
  if url = "" then ⟨none, 0, 0⟩
  else if jsDirectVideo url then ⟨some (0, url), 0, 0⟩
  else if strContains url "snapchat.com" then
    match resolveInner env url with
    | (.error _, n) => ⟨none, 1, n⟩
    | (.ok r, n) => ⟨r, 1, n⟩
  else ⟨none, 0, 0⟩

/-! ## Tab Content Normalizer (`fetchTabContentCallback` in Tabs.jsx)

Each element matched by a category's selector is modelled by the results
of the DOM accesses the category's `dataMapper` performs on it. The
mapper logic itself — branch structure, fallback chains, null returns,
field construction — is translated from the source. -/

/-- An `img` node, as read by the mappers: the `src` property and the
`data-src`/`data-lazy`/`srcset` attributes (`none` = absent, which the
`src` property renders as the empty string — both are falsy). -/
structure ImgNode where
  src : Option String := none
  dataSrc : Option String := none
  dataLazy : Option String := none
  srcset : Option String := none

/-- A matched element, through the eyes of the mappers.

* `tagName`, `textContent`, `href`, `ariaLabel`: the element's own
  properties (`href` is present on every anchor matched by an
  `a[href*=...]` selector).
* `srcAttr`/`dataSrcAttr`/`dataLazyAttr`: the element's *own* image
  attributes (stories maps `img` elements directly).
* `img`: `element.querySelector('img')`.
* `imgClosestDiv`: `element.closest('div')?.querySelector('img')`.
* `imgParent`: `element.parentElement?.querySelector('img')`.
* `h5Text`/`pText`/`spanText`/`psdText`: the `textContent` of
  `querySelector('h5')` / `('p')` / `('span')` / `('p, span, div')`
  (`none` when the selector finds nothing).
* `ancestorTitles`: for the stories image branch, the `textContent` of
  the first `h1`–`h6`/`p`/`span` inside each enclosing container
  (`closest('div, a, article')`, then its parents), in order; `none`
  entries are containers without a title element. The source walks at
  most three.
* `containerParas`: for the tagged fallback branch, the `textContent` of
  the `p` elements of each enclosing `div` container, in order; the
  source walks at most three containers.
* `jsonData`: for script elements, the outcome of
  `JSON.parse(element.textContent)` (`none` = the parse threw). -/
structure Elem where
  tagName : String := ""
  textContent : Option String := none
  href : Option String := none
  ariaLabel : Option String := none
  srcAttr : Option String := none
  dataSrcAttr : Option String := none
  dataLazyAttr : Option String := none
  img : Option ImgNode := none
  imgClosestDiv : Option ImgNode := none
  imgParent : Option ImgNode := none
  h5Text : Option String := none
  pText : Option String := none
  spanText : Option String := none
  psdText : Option String := none
  ancestorTitles : List (Option String) := []
  containerParas : List (List String) := []
  jsonData : Option JsValue := none

/-- A content tile as constructed by the mappers. Text-bearing fields
hold raw JavaScript values (`none` = the field is absent/undefined);
values coming from DOM strings are wrapped in `.str`. `isVideoArray` and
`videoData` model the `_isVideoArray`/`_videoData` marker object the
spotlight mapper returns for a JSON-LD array payload. -/
structure Tile where
  thumbnail : Option JsValue := none
  user : Option JsValue := none
  description : Option JsValue := none
  views : Option JsValue := none
  comments : Option JsValue := none
  shares : Option JsValue := none
  isProfile : Bool := false
  isStory : Bool := false
  url : Option JsValue := none
  isVideoArray : Bool := false
  videoData : List JsValue := []

/-- `img.src || img.getAttribute('data-src') || img.getAttribute('data-lazy')`. -/
def imgSrcChain (i : ImgNode) : Option String :=
  jsOr i.src (jsOr i.dataSrc i.dataLazy)

/-- `a || b` on elements (element references are always truthy). -/
def elOr {α : Type} (a b : Option α) : Option α :=
  match a with
  | some x => some x
  | none => b

/-! ### Selector Cascade Engine

The ordered-fallback extraction idiom of the mappers: a `||` chain over
rule results, evaluated in order, returning the first truthy value.
`extractField` is the chain in rule-list form; the lenses mapper's
description chain below is expressed through it. -/

/-- Evaluate an ordered rule cascade over `tree`: the first rule whose
value is truthy (a non-empty string) wins; when no rule fires the result
is empty. -/
def extractField {α : Type} (tree : α) : List (α → Option String) → Option String
  | [] => none
  | r :: rest =>
      match r tree with
      | some v => if v ≠ "" then some v else extractField tree rest
      | none => extractField tree rest

/-! ### Regular-expression helpers of the mappers -/

/-- The matches of `/\d+[kK]?/g`: maximal digit runs, each taking one
optional trailing `k`/`K`. -/
def numTokens : List Char → List String
  | [] => []
  | c :: rest =>
      if c.isDigit then
        let ds := rest.takeWhile Char.isDigit
        match h : rest.dropWhile Char.isDigit with
        | k :: t =>
            if k = 'k' || k = 'K' then String.mk (c :: ds ++ [k]) :: numTokens t
            else String.mk (c :: ds) :: numTokens (k :: t)
        | [] => [String.mk (c :: ds)]
      else numTokens rest
termination_by l => l.length
decreasing_by
  all_goals simp_wf
  all_goals
    (have h1 := (@List.dropWhile_suffix _ rest Char.isDigit).sublist.length_le
     try rw [h] at h1
     simp at *
     omega)

/-- `linkText.replace(/\d+[kK]?\s*/g, '')`: every counter token together
with the whitespace run following it is removed. -/
def stripCounts : List Char → List Char
  | [] => []
  | c :: rest =>
      if c.isDigit then
        match h : rest.dropWhile Char.isDigit with
        | k :: t =>
            if k = 'k' || k = 'K' then stripCounts (t.dropWhile Char.isWhitespace)
            else stripCounts ((k :: t).dropWhile Char.isWhitespace)
        | [] => []
      else c :: stripCounts rest
termination_by l => l.length
decreasing_by
  all_goals simp_wf
  all_goals
    (have h1 := (@List.dropWhile_suffix _ rest Char.isDigit).sublist.length_le
     try rw [h] at h1
     first
       | (have h2 := (@List.dropWhile_suffix _ t Char.isWhitespace).sublist.length_le
          simp at *
          omega)
       | (have h2 := (@List.dropWhile_suffix _ (k :: t) Char.isWhitespace).sublist.length_le
          simp at *
          omega))

/-- `href.match(/@([^/]+)/)?.[1]`: the first `@` followed by at least one
character other than `/`; the capture runs to the next `/` or the end. -/
def atNameFrom : List Char → Option String
  | [] => none
  | c :: rest =>
      (if c = '@' then
        let cap := rest.takeWhile fun d => d ≠ '/'
        if cap.isEmpty then none else some (String.mk cap)
      else none).orElse fun _ => atNameFrom rest

/-- `addLink.match(/\/add\/([^?]+)/)`: the first occurrence of `/add/`
followed by at least one character other than `?`. -/
def addNameFrom : List Char → Option String
  | [] => none
  | c :: rest =>
      (if "/add/".data.isPrefixOf (c :: rest) then
        let cap := ((c :: rest).drop "/add/".length).takeWhile fun d => d ≠ '?'
        if cap.isEmpty then none else some (String.mk cap)
      else none).orElse fun _ => addNameFrom rest

/-- `username.replace(/\d+$/, '')`: strip the maximal trailing digit run. -/
def stripTrailingDigits (u : String) : String :=
  String.mk (u.data.reverse.dropWhile Char.isDigit).reverse

/-! ### URL-building helpers of the mappers -/

/-- UTF-8 bytes of a character. -/
def utf8Bytes (c : Char) : List Nat :=
  let n := c.toNat
  if n < 128 then [n]
  else if n < 2048 then [192 + n / 64, 128 + n % 64]
  else if n < 65536 then [224 + n / 4096, 128 + n / 64 % 64, 128 + n % 64]
  else [240 + n / 262144, 128 + n / 4096 % 64, 128 + n / 64 % 64, 128 + n % 64]

/-- Upper-case hexadecimal digit. -/
def hexDigit (n : Nat) : Char :=
  ("0123456789ABCDEF".data.getD n '0')

/-- Characters `encodeURIComponent` leaves unescaped. The apostrophe
(code point 39) is among them. -/
def uriUnescaped (c : Char) : Bool :=
  (c.isAlpha && c.toNat < 128) || c.isDigit
  || c = '-' || c = '_' || c = '.' || c = '!' || c = '~' || c = '*'
  || c.toNat = 39 || c = '(' || c = ')'

/-- `encodeURIComponent(s)`. -/
def encodeComponent (s : String) : String :=
  String.mk (s.data.flatMap fun c =>
    if uriUnescaped c then [c]
    else (utf8Bytes c).flatMap fun b => ['%', hexDigit (b / 16), hexDigit (b % 16)])

/-- The stories fallback thumbnail
(`ui-avatars` URL seeded with the first two title characters). -/
def storyAvatarUrl (title : String) : String :=
  "https://ui-avatars.com/api/?name=" ++ encodeComponent (takeStr title 2)
    ++ "&background=fffc00&color=000&size=200"

/-- The related-profiles fallback thumbnail. -/
def relatedAvatarUrl (name : String) : String :=
  "https://ui-avatars.com/api/?name=" ++ encodeComponent name
    ++ "&background=random&size=120"

/-- Collapse runs of dashes (the global `[-]+` to `-` replacement). -/
def collapseDashes : List Char → List Char
  | [] => []
  | [c] => [c]
  | c :: d :: rest =>
      if c = '-' && d = '-' then collapseDashes (d :: rest)
      else c :: collapseDashes (d :: rest)

/-- The generated story id:
lowercase the title, replace every character outside `a-z0-9` by a dash,
collapse dash runs, and keep the first 50 characters. -/
def storySlug (title : String) : String :=
  let dashed := (lowerStr title).data.map fun c =>
    if ('a' ≤ c && c ≤ 'z') || c.isDigit then c else '-'
  String.mk ((collapseDashes dashed).take 50)

/-! ### The five category mappers -/

/-- The stories `dataMapper`: title and thumbnail from a link, an image,
or a bare `h5`; short titles and sort-UI labels dropped; fallback
avatar thumbnail and generated story URL. -/
def storiesMapper (username : String) (e : Elem) : Option Tile :=
  let titleThumb : String × Option String :=
    if e.tagName = "A" then
      ((jsTrim (e.textContent.getD "")), e.img.bind imgSrcChain)
    else if e.tagName = "IMG" then
      let thumb := jsOr e.srcAttr (jsOr e.dataSrcAttr e.dataLazyAttr)
      let title := ((e.ancestorTitles.take 3).findSome? fun t? =>
        match t? with
        | some t => if jsTrim t ≠ "" then some (jsTrim t) else none
        | none => none).getD ""
      (title, thumb)
    else ("", none)
  let storyTitle :=
    if !jsTruthy titleThumb.2 && e.tagName = "H5" then jsTrim (e.textContent.getD "")
    else titleThumb.1
  if storyTitle = "" || storyTitle.length < 3 then none
  else if strContains (lowerStr storyTitle) "recent" || strContains (lowerStr storyTitle) "sort" then
    none
  else
    let thumbnailUrl :=
      match titleThumb.2 with
      | some t => if t = "" then storyAvatarUrl storyTitle else t
      | none => storyAvatarUrl storyTitle
    let storyUrl :=
      if e.tagName = "A" && jsTruthy e.href then e.href.getD ""
      else "https://www.snapchat.com/@" ++ username ++ "/story/" ++ storySlug storyTitle
    some { thumbnail := some (.str thumbnailUrl),
           user := some (.str username),
           description := some (.str storyTitle),
           isStory := true,
           url := some (.str storyUrl) }

/-- `interactionStatistic?.find(stat => stat['@type'] === 'InteractionCounter')`
followed by `?.userInteractionCount`. The callback reads `stat['@type']`,
which throws a `TypeError` when a `null` element is reached; `.find` on a
non-array value (other than the `?.`-guarded `null`/`undefined`) also
throws. -/
def findCounter : List JsValue → Except Unit (Option JsValue)
  | [] => .ok none
  | v :: rest =>
      match v with
      | .null => .error ()
      | .obj kvs =>
          if isStrEq (jsLookup kvs "@type") "InteractionCounter" then
            .ok (jsLookup kvs "userInteractionCount")
          else findCounter rest
      | _ => findCounter rest

/-- `data.interactionStatistic?.find(...)?.userInteractionCount`. -/
def interactionCount (v : Option JsValue) : Except Unit (Option JsValue) :=
  match v with
  | none => .ok none
  | some .null => .ok none
  | some (.arr xs) => findCounter xs
  | some _ => .error ()

/-- The tile built for one JSON-LD `VideoObject`, shared verbatim by the
spotlight script branch and the video-array expansion. A raised
`TypeError` from the view-count lookup propagates to the caller. -/
def spotlightVideoTile (username : String) (kvs : List (String × JsValue)) :
    Except Unit Tile :=
  match interactionCount (jsLookup kvs "interactionStatistic") with
  | .error e => .error e
  | .ok views =>
      let creator := jsLookup kvs "creator"
      let userVal := jsOrV (jsGet creator "alternateName")
        (jsOrV (jsGet creator "name") (some (.str username)))
      .ok { thumbnail := jsLookup kvs "thumbnailUrl",
            user := userVal,
            description := jsOrV (jsLookup kvs "name") (jsLookup kvs "description"),
            views := views,
            comments := some .null,
            shares := some .null,
            url := jsOrV (jsLookup kvs "url")
              (some (.str ("https://www.snapchat.com/@"
                ++ jsOptToStr (jsOrV (jsGet creator "alternateName") (some (.str username)))
                ++ "/spotlight/" ++ jsOptToStr (jsLookup kvs "identifier")))) }

/-- The spotlight `dataMapper`: JSON-LD scripts are dispatched on the
`@type` discriminator (single `VideoObject` → tile; array → the
`_isVideoArray` marker; anything else, or a parse failure, or a raised
`TypeError` — all inside the local `try` — → `null`); other elements go
through the generic DOM branch. -/
def spotlightMapper (username : String) (e : Elem) : Option Tile :=
  if e.tagName = "SCRIPT" then
    match e.jsonData with
    | none => none
    | some (.obj kvs) =>
        if isStrEq (jsLookup kvs "@type") "VideoObject" then
          match spotlightVideoTile username kvs with
          | .ok t => some t
          | .error _ => none
        else none
    | some (.arr xs) => some { isVideoArray := true, videoData := xs }
    | some _ => none
  else
    let linkText := jsTrim (e.textContent.getD "")
    let numbers := numTokens linkText.data
    let imgNode := elOr e.img (elOr e.imgClosestDiv e.imgParent)
    let user := jsOr (e.href.bind fun h => atNameFrom h.data) (some username)
    let description := jsOr (some (jsTrim (String.mk (stripCounts linkText.data))))
      (jsOr e.ariaLabel (e.psdText.map jsTrim))
    some { thumbnail := (imgNode.bind imgSrcChain).map .str,
           user := user.map .str,
           description := description.map .str,
           views := (numbers.get? 0).map .str,
           comments := (numbers.get? 1).map .str,
           shares := (numbers.get? 2).map .str,
           url := (jsOr e.href none).map .str }

/-- The rule cascade of the lenses description
(`querySelector('p')` text, `querySelector('span')` text, `aria-label`,
own text). -/
def lensDescRules : List (Elem → Option String) :=
  [fun e => e.pText.map jsTrim,
   fun e => e.spanText.map jsTrim,
   fun e => e.ariaLabel,
   fun e => e.textContent.map jsTrim]

/-- The lenses `dataMapper`: unlock link absolutized, description through
the fallback cascade with a final `'Lens'` default, owner as user. Never
returns `null`. -/
def lensesMapper (username : String) (e : Elem) : Option Tile :=
  let lensUrl :=
    match jsOr e.href none with
    | some u => some (if startsWithStr u "http" then u else "https://www.snapchat.com" ++ u)
    | none => none
  let description := (extractField e lensDescRules).getD "Lens"
  some { thumbnail := (e.img.bind imgSrcChain).map .str,
         user := some (.str username),
         description := some (.str description),
         url := lensUrl.map .str }

/-- The tagged `dataMapper`, script branch: a JSON-LD `VideoObject` whose
`keywords` mention `#` + the subject (trailing digits stripped). The
`includes` call works element-wise on an array and as a substring test on
a (truthy) string; on any other truthy value it throws a `TypeError`,
which the local `catch` turns into `null` — the same outcome as a falsy
guard. -/
def taggedScriptTile (username : String) (kvs : List (String × JsValue)) : Option Tile :=
  if isStrEq (jsLookup kvs "@type") "VideoObject" then
    let tag := "#" ++ stripTrailingDigits username
    let matched :=
      match jsLookup kvs "keywords" with
      | some (.arr xs) => xs.any fun x => isStrEq (some x) tag
      | some (.str s) => s ≠ "" && strContains s tag
      | _ => false
    if matched then
      let creatorName := jsGet (jsLookup kvs "creator") "alternateName"
      some { thumbnail := jsLookup kvs "thumbnailUrl",
             user := creatorName,
             description := jsOrV (jsLookup kvs "name") (jsLookup kvs "description"),
             views := some .null,
             comments := some .null,
             shares := some .null,
             url := jsOrV (jsLookup kvs "url")
               (some (.str ("https://www.snapchat.com/@" ++ jsOptToStr creatorName
                 ++ "/spotlight/" ++ jsOptToStr (jsLookup kvs "identifier")))) }
    else none
  else none

/-- The tagged `dataMapper`: JSON-LD scripts through `taggedScriptTile`,
other elements through link parsing with a hashtag-description search
over the enclosing containers. -/
def taggedMapper (username : String) (e : Elem) : Option Tile :=
  if e.tagName = "SCRIPT" then
    match e.jsonData with
    | none => none
    | some (.obj kvs) => taggedScriptTile username kvs
    | some _ => none
  else
    let linkText := jsTrim (e.textContent.getD "")
    let numbers := numTokens linkText.data
    let userName := e.href.bind fun h => atNameFrom h.data
    let description := (e.containerParas.take 3).findSome? fun ps =>
      ps.findSome? fun p =>
        let t := jsTrim p
        if t ≠ "" && (strContains t "#" || t.length > 20) then some t else none
    some { thumbnail := (e.img.bind ImgNode.src).map .str,
           user := userName.map .str,
           description := description.map .str,
           views := (numbers.get? 0).map .str,
           comments := (numbers.get? 1).map .str,
           shares := (numbers.get? 2).map .str,
           url := (jsOr e.href none).map .str }

/-- The related `dataMapper`: requires an `/add/` link and an `h5` name
element; thumbnail from the first `srcset` entry when it is an absolute
`https` URL, then the usual attribute chain, then a generated avatar;
marks the tile `isProfile`. -/
def relatedMapper (_username : String) (e : Elem) : Option Tile :=
  let addLink := e.href.getD ""
  match addNameFrom addLink.data with
  | none => none
  | some _ =>
      match e.h5Text with
      | none => none
      | some nameText =>
          let fromImg : Option String :=
            match e.img with
            | some i =>
                let fromSrcset :=
                  match i.srcset with
                  | some ss =>
                      if ss ≠ "" then
                        let tok := String.mk (ss.data.takeWhile (fun c => c ≠ ' '))
                        if tok ≠ "" && startsWithStr tok "https://" then some tok else none
                      else none
                  | none => none
                match fromSrcset with
                | some t => some t
                | none => imgSrcChain i
            | none => none
          let nameTrim := jsTrim nameText
          let thumbnailUrl :=
            match fromImg with
            | some t => if t = "" then relatedAvatarUrl nameTrim else t
            | none => relatedAvatarUrl nameTrim
          some { thumbnail := some (.str thumbnailUrl),
                 user := some (.str nameTrim),
                 description := (e.pText.map jsTrim).map .str,
                 isProfile := true,
                 url := some (.str addLink) }

/-! ### The normalization pipeline -/

/-- The six content categories. The `profile` record itself is produced
elsewhere; `fetchTabContentCallback` handles these five. -/
inductive Category where
  | stories
  | spotlight
  | lenses
  | tagged
  | related
deriving DecidableEq

/-- The `dataMapper` selected by the category switch. -/
def mapperFor : Category → String → Elem → Option Tile
  | .stories => storiesMapper
  | .spotlight => spotlightMapper
  | .lenses => lensesMapper
  | .tagged => taggedMapper
  | .related => relatedMapper

/-- The per-tile validity filter applied right after mapping: profile
tiles need a truthy user; story tiles a truthy user *and* description;
every other tile a truthy user *or* description. (The source's trailing
`return true` is unreachable.) `null` mapper results were already
removed by the surrounding `filterMap`. -/
def tileKeep (t : Tile) : Bool :=
  if t.isProfile then jsOptTruthy t.user
  else if t.isStory then jsOptTruthy t.user && jsOptTruthy t.description
  else jsOptTruthy t.user || jsOptTruthy t.description

/-- Expansion of one `_videoData` payload: one tile per `VideoObject`
entry, built exactly like the single-`VideoObject` script branch. This
code is *not* inside a `try`, so a raised `TypeError` propagates. -/
def expandVideoData (username : String) (xs : List JsValue) : Except Unit (List Tile) :=
  xs.foldlM (fun acc v =>
    match v with
    | .obj kvs =>
        if isStrEq (jsLookup kvs "@type") "VideoObject" then
          match spotlightVideoTile username kvs with
          | .ok t => .ok (acc ++ [t])
          | .error e => .error e
        else .ok acc
    | _ => .ok acc) []

/-- Lines 418–440 of Tabs.jsx: collect the `_isVideoArray` markers from
the (already filtered) data, expand them, and replace the markers by the
expanded tiles. When no marker is present the data passes through
unchanged. -/
def processVideoArrays (username : String) (data : List Tile) : Except Unit (List Tile) :=
  let videoArrays := data.filter fun t => t.isVideoArray
  if videoArrays.isEmpty then .ok data
  else
    match videoArrays.foldlM (fun acc m => (expandVideoData username m.videoData).map (acc ++ ·)) [] with
    | .error e => .error e
    | .ok processed => .ok ((data.filter fun t => !t.isVideoArray) ++ processed)

/-- The dedup key: the template literal `user + ':' + description` with
JavaScript string coercion (`undefined` prints as `undefined`). -/
def tileKey (t : Tile) : String :=
  jsOptToStr t.user ++ ":" ++ jsOptToStr t.description

/-- `Set`-based dedup by key, keeping the first occurrence. -/
def dedupByKey : List Tile → List String → List Tile
  | [], _ => []
  | t :: rest, seen =>
      if seen.contains (tileKey t) then dedupByKey rest seen
      else t :: dedupByKey rest (tileKey t :: seen)

/-- Tagged-only post-processing: drop tiles whose `user` is (strictly
equal to) the subject, then dedup by the (user, description) key. -/
def taggedPost (username : String) (data : List Tile) : List Tile :=
  dedupByKey (data.filter fun t => !isStrEq t.user username) []

/-- The data produced by one `fetchTabContentCallback(tab)` run once the
tab page is fetched and its elements selected: map, filter by the tile
invariants, expand JSON-LD video arrays, and apply the tagged
post-processing. `.error` models a raised `TypeError` escaping to the
outer `catch` (in which case no items are applied). -/
def fetchTabContent (cat : Category) (username : String) (elems : List Elem) :
    Except Unit (List Tile) :=
  let data := (elems.filterMap (mapperFor cat username)).filter tileKeep
  match processVideoArrays username data with
  | .error e => .error e
  | .ok d2 => .ok (if cat = Category.tagged then taggedPost username d2 else d2)

/-! ## Request tagging and the stale-response guard

`Tabs` keeps a single `requestIdRef` counter; every
`fetchTabContentCallback` entry takes `reqId = ++requestIdRef.current`,
and both the `setItems` call on success and the `setLoading` calls are
guarded by `requestIdRef.current === reqId`. -/

/-- The caller-visible component state. -/
structure TabsState where
  requestId : Nat
  items : List Tile
  loading : Bool

/-- The events of one request's lifecycle: entry of the callback
(`start`), successful completion carrying the request's id and its data,
and the failure path of the `catch` block. -/
inductive TabsEv where
  | start
  | finish (reqId : Nat) (data : List Tile)
  | fail (reqId : Nat)

/-- One step of the Tabs request machine, translated from the guards of
`fetchTabContentCallback`. -/
def tabsStep (s : TabsState) : TabsEv → TabsState
  | .start => { s with requestId := s.requestId + 1, loading := true }
  | .finish reqId data =>
      if s.requestId = reqId then { s with items := data, loading := false } else s
  | .fail reqId =>
      if s.requestId = reqId then { s with loading := false } else s

/-! ## Response Cache

The Response Cache is implemented by the `SnapchatScraper` module bundled
in `investigation_notes.md`: its constructor builds
`this.cache = new NodeCache({ stdTTL: 300 })` ("Cache for 5 minutes"),
and `fetchTabContent(username, tab)` realizes the get-or-fetch
discipline: it computes the key `tab:<username>:<tab>`, does
`const cached = this.cache.get(cacheKey); if (cached) return cached;`,
otherwise fetches and parses, runs `this.cache.set(cacheKey, data)` and
returns `data`; its catch logs and returns `[]` without storing. The
definitions below embed that code together with node-cache's own get/set
semantics: `set` stores the value with expiry `Date.now() + stdTTL*1000`,
and `get` treats an entry as expired exactly when
`data.t !== 0 && data.t < Date.now()` (node-cache's check), deleting it
on expiry (`deleteOnExpire` defaults to true). Parsed tab content is an
array, which is truthy in JavaScript even when empty, so `if (cached)`
is a presence test here. -/

/-- The scraper's cache TTL: `new NodeCache({ stdTTL: 300 })`, seconds. -/
def stdTtlSeconds : Nat := 300

/-- A node-cache entry: the stored value with its expiry time in
milliseconds (node-cache's `data.t`). -/
structure NcEntry (α : Type) where
  value : α
  expiresAt : Nat

/-- The node-cache contents, keyed by string keys. -/
structure NodeCacheStore (α : Type) where
  entries : List (String × NcEntry α)

/-- Entry lookup by key. -/
def ncFind {α : Type} (c : NodeCacheStore α) (k : String) : Option (NcEntry α) :=
  (c.entries.find? (fun p => p.1 = k)).map (fun p => p.2)

/-- Delete a key (node-cache `del`, also used by expiry-on-get). -/
def ncDel {α : Type} (c : NodeCacheStore α) (k : String) : NodeCacheStore α :=
  ⟨c.entries.filter (fun p => p.1 ≠ k)⟩

/-- node-cache `set` under `stdTTL`: stores the value with expiry
`Date.now() + stdTTL * 1000` (milliseconds), overwriting the key. -/
def ncSet {α : Type} (c : NodeCacheStore α) (now : Nat) (k : String) (v : α) :
    NodeCacheStore α :=
  ⟨(k, ⟨v, now + stdTtlSeconds * 1000⟩) :: (ncDel c k).entries⟩

/-- node-cache `get`: a found entry is expired exactly when
`data.t !== 0 && data.t < Date.now()`; an expired entry is deleted and
the get misses; otherwise the stored value is returned. Returns the
value (if any) and the possibly-updated store. -/
def ncGet {α : Type} (c : NodeCacheStore α) (now : Nat) (k : String) :
    Option α × NodeCacheStore α :=
  match ncFind c k with
  | some e =>
      if e.expiresAt ≠ 0 ∧ e.expiresAt < now then (none, ncDel c k)
      else (some e.value, c)
  | none => (none, c)

/-- The cache key of `fetchTabContent`: `` `tab:${username}:${tab}` ``. -/
def tabCacheKey (username tab : String) : String :=
  "tab:" ++ username ++ ":" ++ tab

/-- `SnapchatScraper.fetchTabContent(username, tab)`: on a cache hit the
cached array is returned; on a miss the fetch-and-parse pipeline
(modelled by `producer`, which returns `none` when the fetch throws or
`!response.ok` raises) runs, a successful result is stored via
`this.cache.set(cacheKey, data)` and returned, and a failure takes the
catch branch returning `[]` without storing. The third component counts
the producer invocations the call made (0 or 1). -/
def scraperFetchTab {β : Type} (c : NodeCacheStore (List β)) (now : Nat)
    (username tab : String) (producer : Nat → Option (List β)) :
    List β × NodeCacheStore (List β) × Nat :=
  match ncGet c now (tabCacheKey username tab) with
  | (some cached, c1) => (cached, c1, 0)
  | (none, c1) =>
      match producer now with
      | some data => (data, ncSet c1 now (tabCacheKey username tab) data, 1)
      | none => ([], c1, 1)

/-! ## Stated properties and concrete instances -/

/-- The per-category required-field invariant of §3 of the spec: a
profile tile has a truthy user; a story tile a truthy user and
description; every other content tile a truthy user or description — so
a tile carrying only a thumbnail is never emitted. -/
def tileInvariant (t : Tile) : Prop :=
  (t.isProfile = true → jsOptTruthy t.user = true)
  ∧ (t.isStory = true → jsOptTruthy t.user = true ∧ jsOptTruthy t.description = true)
  ∧ (t.isProfile = false → t.isStory = false →
      (jsOptTruthy t.user = true ∨ jsOptTruthy t.description = true))

/-- Stated from the spec's words, for comparison with the code's
ranking: does the value end in one of the known media extensions
(`.mp4`, `.webm`, `.ogg`, `.mov`)? -/
def specEndsInVideoExt (v : String) : Bool :=
  ["mp4", "webm", "ogg", "mov"].any fun ext => endsWithStr (lowerStr v) ("." ++ ext)

/-- A fetched page with no structured payload and one `video` element
carrying a direct `.mp4` source: strategy 1 finds nothing and strategy 3
would succeed. -/
def mediaOnlyDoc : PageDoc :=
  { nextData := none,
    mediaElems := [[("src", "https://cdn.example.com/video.mp4")]],
    bgUrls := [], apolloBlobs := [], scriptUrlHits := [], manifestUrls := [] }

/-- A network that serves `mediaOnlyDoc` for every page fetch. -/
def mediaOnlyEnv : NetEnv :=
  { fetchPage := fun _ => some mediaOnlyDoc,
    headProbe := fun _ => none,
    fetchText := fun _ => none }

/-- A fetched page whose `__NEXT_DATA__` script exists but does not
parse. -/
def parseFailDoc : PageDoc :=
  { nextData := some none,
    mediaElems := [], bgUrls := [], apolloBlobs := [], scriptUrlHits := [],
    manifestUrls := [] }

/-- A network that serves `parseFailDoc` for every page fetch. -/
def parseFailEnv : NetEnv :=
  { fetchPage := fun _ => some parseFailDoc,
    headProbe := fun _ => none,
    fetchText := fun _ => none }

/-- A network on which every request fails. -/
def deadEnv : NetEnv :=
  { fetchPage := fun _ => none,
    headProbe := fun _ => none,
    fetchText := fun _ => none }

/-- A candidate that ends in a known video extension but does not
contain `.mp4` — `medium` confidence for the code. -/
def webmCandidate : String := "https://media.example.com/clip.webm"

/-- A candidate that does not end in a video extension but contains
`.mp4` and a known CDN host — `high` confidence for the code. -/
def cdnJpgCandidate : String := "https://cf-st.sc-cdn.net/d/clip.mp4.jpg"

/-- A `__NEXT_DATA__` payload holding both candidates, the
extension-ending one first. -/
def rankJson : JsValue :=
  .obj [("videoUrl", .str webmCandidate), ("contentUrl", .str cdnJpgCandidate)]

/-- A JSON-LD `VideoObject`. -/
def videoObjA : JsValue :=
  .obj [("@type", .str "VideoObject"), ("name", .str "first clip"),
        ("url", .str "https://www.snapchat.com/@alice/spotlight/a1")]

/-- A second JSON-LD `VideoObject`. -/
def videoObjB : JsValue :=
  .obj [("@type", .str "VideoObject"), ("name", .str "second clip"),
        ("url", .str "https://www.snapchat.com/@alice/spotlight/a2")]

/-- A JSON-LD script element whose payload is an array of two
`VideoObject`s (the upstream site's format). -/
def ldArrayScript : Elem :=
  { tagName := "SCRIPT", jsonData := some (.arr [videoObjA, videoObjB]) }

/-- A lens tile anchor with a relative unlock link and a paragraph
description. -/
def lensElem : Elem :=
  { tagName := "A", href := some "/unlock/abc", pText := some " Cool lens " }

/-- The tile the lenses pipeline emits for `lensElem`. -/
def lensTileOut : Tile :=
  { thumbnail := none,
    user := some (.str "alice"),
    description := some (.str "Cool lens"),
    url := some (.str "https://www.snapchat.com/unlock/abc") }

/-- A tagged tile by another user, first copy. -/
def taggedTileA : Tile :=
  { user := some (.str "carol"), description := some (.str "#alice shoutout"),
    url := some (.str "https://www.snapchat.com/@carol/spotlight/z1") }

/-- A tagged tile by another user, duplicate of the first by
(user, description). -/
def taggedTileB : Tile :=
  { user := some (.str "carol"), description := some (.str "#alice shoutout"),
    url := some (.str "https://www.snapchat.com/@carol/spotlight/z2") }

/-- A self-authored tagged tile. -/
def taggedTileSelf : Tile :=
  { user := some (.str "alice"), description := some (.str "my own clip") }

/-! ## Theorems -/

/-- Claim C10: a canonical URL already ending in a known video extension
(`.mp4`, `.webm`, `.ogg`, `.mov`, case-insensitively) is returned
unchanged by `getVideoUrl` with no page fetch and no strategy entered;
a canonical URL that is neither a direct video URL nor contains
`snapchat.com` yields the empty result with no page fetch and no
strategy entered. -/
theorem resolver_direct_and_foreign_urls (env : NetEnv) (url : String) :
    (jsDirectVideo url = true → getVideoUrlT env url = ⟨some (0, url), 0, 0⟩)
    ∧ (jsDirectVideo url = false → strContains url "snapchat.com" = false →
        getVideoUrlT env url = ⟨none, 0, 0⟩) := by
  constructor
  · intro h
    have hne : url ≠ "" := by
      intro he
      rw [he] at h
      exact absurd h (by decide)
    simp [getVideoUrlT, hne, h]
  · intro h1 h2
    by_cases hne : url = ""
    · rw [hne]; simp [getVideoUrlT]
    · simp [getVideoUrlT, hne, h1, h2]

/-- Witness for C10 at a mixed-case direct video URL and a non-Snapchat
page URL. -/
theorem resolver_direct_and_foreign_urls_witness :
    getVideoUrlT deadEnv "https://cdn.example.com/clip.MP4" =
      ⟨some (0, "https://cdn.example.com/clip.MP4"), 0, 0⟩
    ∧ getVideoUrlT deadEnv "https://example.org/watch" = ⟨none, 0, 0⟩ :=
  ⟨(resolver_direct_and_foreign_urls deadEnv "https://cdn.example.com/clip.MP4").1 (by decide),
   (resolver_direct_and_foreign_urls deadEnv "https://example.org/watch").2
     (by decide) (by decide)⟩

/-- Claim C1 (failing-input evidence): on a page where strategy 1 finds
nothing and strategy 3 would produce a validated URL, the resolver does
not return strategy 3's result with index 3 — strategy 2's
`querySelectorAll('*[data-*]')` raises a `SyntaxError` (the selector is
invalid CSS), the outer `catch` returns `null`, and only two strategies
are ever entered. -/
theorem strategy3_success_not_returned :
    method1 mediaOnlyDoc = none
    ∧ method3 mediaOnlyDoc = some "https://cdn.example.com/video.mp4"
    ∧ getVideoUrlT mediaOnlyEnv "https://www.snapchat.com/spotlight/abc123" =
        ⟨none, 1, 2⟩ := by
  refine ⟨rfl, by decide, by decide⟩

/-- Claim C8: no failure inside the resolver reaches the caller. Every
raise inside the `try` block — including the fetch failure and the
strategy-2 selector error — is converted by the `catch` into the empty
result; in particular a failed page fetch and a non-parsing
`__NEXT_DATA__` script both end in the empty result. -/
theorem resolver_catches_internal_errors (env : NetEnv) (url : String)
    (hne : url ≠ "") (hnd : jsDirectVideo url = false)
    (hsc : strContains url "snapchat.com" = true) :
    (∀ (e : ResolveErr) (n : Nat), resolveInner env url = (.error e, n) →
        getVideoUrlT env url = ⟨none, 1, n⟩)
    ∧ (env.fetchPage (proxyOf url) = none → getVideoUrlT env url = ⟨none, 1, 0⟩)
    ∧ (∀ d : PageDoc, env.fetchPage (proxyOf url) = some d → d.nextData = some none →
        getVideoUrlT env url = ⟨none, 1, 2⟩) := by
  refine ⟨?_, ?_, ?_⟩
  · intro e n h
    simp [getVideoUrlT, hne, hnd, hsc, h]
  · intro h
    simp [getVideoUrlT, hne, hnd, hsc, resolveInner, h]
  · intro d h1 h2
    simp [getVideoUrlT, hne, hnd, hsc, resolveInner, h1, strategyList, runCascade,
      method1, h2, method2]

/-- Witness for C8: a Snapchat URL with a failing network, and the same
URL with a page whose structured payload does not parse. -/
theorem resolver_catches_internal_errors_witness :
    getVideoUrlT deadEnv "https://www.snapchat.com/spotlight/w1" = ⟨none, 1, 0⟩
    ∧ getVideoUrlT parseFailEnv "https://www.snapchat.com/spotlight/w1" = ⟨none, 1, 2⟩ :=
  ⟨(resolver_catches_internal_errors deadEnv "https://www.snapchat.com/spotlight/w1"
      (by decide) (by decide) (by decide)).2.1 rfl,
   (resolver_catches_internal_errors parseFailEnv "https://www.snapchat.com/spotlight/w1"
      (by decide) (by decide) (by decide)).2.2 parseFailDoc rfl rfl⟩

/-- Claim C9 (failing-input evidence): a JSON-LD script whose payload is
an array of two `VideoObject`s is mapped to the `_isVideoArray` marker,
and expanding that marker would produce two tiles — but the pipeline
emits no tile at all, because the validity filter removes the marker
(it has neither user nor description) before the video-array expansion
step looks for markers. -/
theorem spotlight_video_array_dropped :
    spotlightMapper "alice" ldArrayScript =
      some { isVideoArray := true, videoData := [videoObjA, videoObjB] }
    ∧ (expandVideoData "alice" [videoObjA, videoObjB]).map List.length = .ok 2
    ∧ fetchTabContent Category.spotlight "alice" [ldArrayScript] = .ok [] := by
  refine ⟨rfl, rfl, rfl⟩

/-- Claim C5: every entry into `fetchTabContentCallback` takes a fresh,
strictly larger request id; ids never decrease on any event; and when a
request A is superseded by a later request B before completing, A's
completion leaves the state — in particular the caller-visible
`items` — entirely unchanged. -/
theorem stale_response_guard (s0 : TabsState) (dataA : List Tile) :
    (∀ s : TabsState, (tabsStep s .start).requestId = s.requestId + 1)
    ∧ (∀ (s : TabsState) (e : TabsEv), s.requestId ≤ (tabsStep s e).requestId)
    ∧ tabsStep (tabsStep (tabsStep s0 .start) .start)
        (.finish (tabsStep s0 .start).requestId dataA) =
      tabsStep (tabsStep s0 .start) .start := by
  refine ⟨fun s => rfl, ?_, ?_⟩
  · intro s e
    cases e <;> simp [tabsStep] <;> split <;> simp
  · simp [tabsStep]

/-- Claim C6: the selector cascade evaluates rules in order and
short-circuits — when `r1` misses and `r2` fires the result is exactly
`r2`'s value, independent of the third rule (which is therefore never
evaluated); and when no rule fires, the cascade returns empty rather
than an error. -/
theorem extractField_short_circuit {α : Type} (tree : α) (r1 r2 r3 : α → Option String)
    (h1 : jsTruthy (r1 tree) = false) (h2 : jsTruthy (r2 tree) = true) :
    extractField tree [r1, r2, r3] = r2 tree
    ∧ (∀ r3' : α → Option String, extractField tree [r1, r2, r3'] = r2 tree)
    ∧ (∀ rules : List (α → Option String), (∀ r ∈ rules, jsTruthy (r tree) = false) →
        extractField tree rules = none) := by
  have core : ∀ r3' : α → Option String, extractField tree [r1, r2, r3'] = r2 tree := by
    intro r3'
    simp only [extractField]
    cases hr1 : r1 tree with
    | none =>
        cases hr2 : r2 tree with
        | none => rw [hr2] at h2; exact absurd h2 (by simp [jsTruthy])
        | some v2 =>
            have hv2 : v2 ≠ "" := by
              rw [hr2] at h2; simpa [jsTruthy] using h2
            simp [hv2]
    | some v1 =>
        have hv1 : ¬v1 ≠ "" := by
          rw [hr1] at h1; simpa [jsTruthy] using h1
        cases hr2 : r2 tree with
        | none => rw [hr2] at h2; exact absurd h2 (by simp [jsTruthy])
        | some v2 =>
            have hv2 : v2 ≠ "" := by
              rw [hr2] at h2; simpa [jsTruthy] using h2
            simp [hv1, hv2]
  refine ⟨core r3, core, ?_⟩
  intro rules hall
  induction rules with
  | nil => rfl
  | cons r rest ih =>
      have hr := hall r (by simp)
      have ihr := ih fun r' hr' => hall r' (by simp [hr'])
      cases hrt : r tree with
      | none => simpa [extractField, hrt] using ihr
      | some v =>
          have hv : ¬v ≠ "" := by rw [hrt] at hr; simpa [jsTruthy] using hr
          simpa [extractField, hrt, hv] using ihr

/-- Witness for C6: a concrete three-rule cascade where the first rule
misses, the second fires, and the third would yield a different value;
and an all-missing cascade. -/
theorem extractField_short_circuit_witness :
    extractField (0 : Nat)
      [fun _ => none, fun _ => some "spot", fun _ => some "bad"] = some "spot"
    ∧ extractField (0 : Nat) [fun _ => (none : Option String), fun _ => some ""] = none :=
  ⟨(extractField_short_circuit (0 : Nat) (fun _ => none) (fun _ => some "spot")
      (fun _ => some "bad") rfl (by decide)).1,
   (extractField_short_circuit (0 : Nat) (fun _ => none) (fun _ => some "spot")
      (fun _ => some "bad") rfl (by decide)).2.2
     [fun _ => none, fun _ => some ""]
     (by
        intro r hr
        simp only [List.mem_cons, List.mem_singleton] at hr
        rcases hr with h | h | h
        · rw [h]; rfl
        · rw [h]; rfl
        · exact absurd h (by simp))⟩

/-- Claim C3: tagged normalization first removes every tile whose user
is the subject and then dedups by the (user, description) key — so two
tagged tiles with identical user and description by another author plus
one self-authored tile reduce to exactly the first copy, which is not
the self-authored one. -/
theorem tagged_self_filter_dedup (subject u d : String) (a b c : Tile)
    (hau : a.user = some (.str u)) (hbu : b.user = some (.str u))
    (had : a.description = some (.str d)) (hbd : b.description = some (.str d))
    (hcu : c.user = some (.str subject)) (hne : u ≠ subject) :
    taggedPost subject [a, b, c] = [a] ∧ a.user ≠ c.user := by
  constructor
  · have hfa : isStrEq a.user subject = false := by rw [hau]; simp [isStrEq, hne]
    have hfb : isStrEq b.user subject = false := by rw [hbu]; simp [isStrEq, hne]
    have hfc : isStrEq c.user subject = true := by rw [hcu]; simp [isStrEq]
    have hkey : tileKey b = tileKey a := by
      simp [tileKey, hau, hbu, had, hbd]
    simp [taggedPost, hfa, hfb, hfc, dedupByKey, hkey]
  · rw [hau, hcu]
    simp [hne]

/-- Witness for C3: two identical tiles by `carol` and one by the
subject `alice` leave exactly the first `carol` tile. -/
theorem tagged_self_filter_dedup_witness :
    taggedPost "alice" [taggedTileA, taggedTileB, taggedTileSelf] = [taggedTileA]
    ∧ taggedTileA.user ≠ taggedTileSelf.user :=
  tagged_self_filter_dedup "alice" "carol" "#alice shoutout"
    taggedTileA taggedTileB taggedTileSelf rfl rfl rfl rfl rfl (by decide)

/-- Claim C4: the scraper's get-or-fetch discipline is TTL-bounded
memoization with the default TTL of 5 minutes (`stdTTL: 300`). From a
cold cache, the first `fetchTabContent` call invokes the fetch-and-parse
producer once and stores the result; a second call within the TTL window
invokes the producer zero times, returns the stored value, and leaves
the cache unchanged; a third call after the TTL has elapsed invokes the
producer again and stores the fresh result under a fresh expiry. -/
theorem scraper_cache_economy {β : Type} (c0 : NodeCacheStore (List β))
    (u tab : String) (t0 t1 t2 : Nat) (producer : Nat → Option (List β))
    (d0 d2 : List β)
    (hmiss : ncFind c0 (tabCacheKey u tab) = none)
    (hp0 : producer t0 = some d0) (hp2 : producer t2 = some d2)
    (hwin : t1 - t0 < stdTtlSeconds * 1000)
    (hexp : t0 + stdTtlSeconds * 1000 < t2) :
    stdTtlSeconds = 5 * 60
    ∧ scraperFetchTab c0 t0 u tab producer =
        (d0, ncSet c0 t0 (tabCacheKey u tab) d0, 1)
    ∧ scraperFetchTab (ncSet c0 t0 (tabCacheKey u tab) d0) t1 u tab producer =
        (d0, ncSet c0 t0 (tabCacheKey u tab) d0, 0)
    ∧ scraperFetchTab (ncSet c0 t0 (tabCacheKey u tab) d0) t2 u tab producer =
        (d2, ncSet (ncDel (ncSet c0 t0 (tabCacheKey u tab) d0) (tabCacheKey u tab))
              t2 (tabCacheKey u tab) d2, 1)
    ∧ ncFind (scraperFetchTab (ncSet c0 t0 (tabCacheKey u tab) d0) t2 u tab
          producer).2.1 (tabCacheKey u tab) =
        some ⟨d2, t2 + stdTtlSeconds * 1000⟩ := by
  have hs : stdTtlSeconds = 300 := rfl
  have hfind : ncFind (ncSet c0 t0 (tabCacheKey u tab) d0) (tabCacheKey u tab) =
      some ⟨d0, t0 + stdTtlSeconds * 1000⟩ := by
    simp [ncFind, ncSet, ncDel]
  have hlive : ¬(t0 + stdTtlSeconds * 1000 ≠ 0 ∧ t0 + stdTtlSeconds * 1000 < t1) := by
    rw [hs] at hwin ⊢
    omega
  have hdead : t0 + stdTtlSeconds * 1000 ≠ 0 ∧ t0 + stdTtlSeconds * 1000 < t2 := by
    rw [hs] at hexp ⊢
    omega
  have h1 : scraperFetchTab c0 t0 u tab producer =
      (d0, ncSet c0 t0 (tabCacheKey u tab) d0, 1) := by
    simp [scraperFetchTab, ncGet, hmiss, hp0]
  have h2 : scraperFetchTab (ncSet c0 t0 (tabCacheKey u tab) d0) t1 u tab producer =
      (d0, ncSet c0 t0 (tabCacheKey u tab) d0, 0) := by
    simp only [scraperFetchTab, ncGet, hfind]
    rw [if_neg hlive]
  have h3 : scraperFetchTab (ncSet c0 t0 (tabCacheKey u tab) d0) t2 u tab producer =
      (d2, ncSet (ncDel (ncSet c0 t0 (tabCacheKey u tab) d0) (tabCacheKey u tab))
            t2 (tabCacheKey u tab) d2, 1) := by
    simp only [scraperFetchTab, ncGet, hfind]
    rw [if_pos hdead]
    simp only [hp2]
  refine ⟨rfl, h1, h2, h3, ?_⟩
  rw [h3]
  simp [ncFind, ncSet, ncDel]

/-- Witness for C4: from a cold cache, `fetchTabContent` calls for
`dave`'s Spotlight tab at 0 ms, 2 minutes, and 6 minutes invoke the
producer once, zero times, and once. -/
theorem scraper_cache_economy_witness :
    (scraperFetchTab (⟨[]⟩ : NodeCacheStore (List Tile)) 0 "dave" "Spotlight"
        (fun _ => some []) : List Tile × _ × Nat).2.2 = 1
    ∧ (scraperFetchTab
          (ncSet (⟨[]⟩ : NodeCacheStore (List Tile)) 0 (tabCacheKey "dave" "Spotlight") [])
          120000 "dave" "Spotlight" (fun _ => some [])).2.2 = 0
    ∧ (scraperFetchTab
          (ncSet (⟨[]⟩ : NodeCacheStore (List Tile)) 0 (tabCacheKey "dave" "Spotlight") [])
          360000 "dave" "Spotlight" (fun _ => some [])).2.2 = 1 := by
  have h := scraper_cache_economy (⟨[]⟩ : NodeCacheStore (List Tile))
    "dave" "Spotlight" 0 120000 360000 (fun _ => some []) [] []
    rfl rfl rfl (by decide) (by decide)
  exact ⟨by rw [h.2.1], by rw [h.2.2.1], by rw [h.2.2.2.1]⟩

/-- Claim C7 (counterexample to the ranking clause): on a payload holding
a candidate that ends in a known video extension (`.webm`) and a later
candidate that does not end in a video extension but contains `.mp4`,
strategy 1 returns the latter — the code ranks by the substring test
`includes('.mp4')`, not by whether the value ends in a known video
extension. -/
theorem deepSearch_rank_counterexample :
    deepVideoSearch rankJson 0 = [(webmCandidate, false), (cdnJpgCandidate, true)]
    ∧ specEndsInVideoExt webmCandidate = true
    ∧ specEndsInVideoExt cdnJpgCandidate = false
    ∧ pickNextDataUrl rankJson = some cdnJpgCandidate
    ∧ cdnJpgCandidate ≠ webmCandidate := by
  refine ⟨by decide, by decide, by decide, by decide, by decide⟩

/-- `jsLookup` ignores an entry whose key differs from the looked-up
one. -/
theorem jsLookup_skip (pre post : List (String × JsValue)) (k prop : String)
    (v : JsValue) (hne : k ≠ prop) :
    jsLookup (pre ++ (k, v) :: post) prop = jsLookup (pre ++ post) prop := by
  induction pre with
  | nil =>
      rw [List.nil_append]
      simp [jsLookup, List.find?_cons, hne]
  | cons p pre ih =>
      by_cases hp : p.1 = prop
      · simp [jsLookup, List.find?_cons, hp]
      · simp only [List.cons_append]
        simp only [jsLookup, List.find?_cons, hp] at ih ⊢
        simpa [hp] using ih

/-- None of the 23 scanned property names lowercases into the excluded
key set. -/
theorem videoProps_not_excluded :
    ∀ p ∈ videoProps, excludedKeys.contains (lowerStr p) = false := by
  decide

/-- `List.find?` over a filter-style predicate is the head of the
filtered list. -/
theorem find?_eq_head?_filter {α : Type} (p : α → Bool) (l : List α) :
    l.find? p = (l.filter p).head? := by
  induction l with
  | nil => rfl
  | cons a t ih =>
      by_cases ha : p a = true
      · rw [List.find?_cons_of_pos t ha, List.filter_cons_of_pos ha]
        rfl
      · rw [List.find?_cons_of_neg t ha, List.filter_cons_of_neg ha]
        exact ih

/-- The stable high-confidence-first selection, rephrased: the first
candidate of the high-confidence class, else the first candidate. -/
theorem pick_structure (cands : List (String × Bool)) :
    (match cands.filter (fun c => c.2), cands.filter (fun c => !c.2) with
     | [], [] => none
     | [], c :: _ => some c.1
     | c :: _, _ => (some c.1 : Option String)) =
    match (cands.filter (fun c => c.2)).head? with
    | some cHit => some cHit.1
    | none => cands.head?.map (fun c => c.1) := by
  cases hh : cands.filter (fun c => c.2) with
  | cons c t => simp
  | nil =>
      have hall : ∀ a ∈ cands, ¬(a.2 = true) := by
        simpa using List.filter_eq_nil_iff.mp hh
      have hself : cands.filter (fun c => !c.2) = cands := by
        rw [List.filter_eq_self]
        intro a ha
        simpa using hall a ha
      rw [hself]
      cases cands with
      | nil => simp
      | cons c2 t2 => simp

/-- Claim C7 (amended ranking): strategy 1's search is cut off beyond
depth 10 (and so terminates on every payload), entries under keys named
thumbnail/poster/preview/icon (case-insensitively) contribute nothing,
and among the candidates found the first `.mp4`-containing one is
returned, falling back to the first candidate when none contains
`.mp4`. -/
theorem deepSearch_depth_exclusion_rank :
    (∀ (v : JsValue) (depth : Nat), 10 < depth → deepVideoSearch v depth = [])
    ∧ (∀ (depth : Nat) (pre post : List (String × JsValue)) (k : String) (v : JsValue),
        excludedKeys.contains (lowerStr k) = true →
        deepVideoSearch (.obj (pre ++ (k, v) :: post)) depth =
          deepVideoSearch (.obj (pre ++ post)) depth)
    ∧ (∀ j : JsValue,
        pickNextDataUrl j =
          match (deepVideoSearch j 0).find? (fun c => c.2) with
          | some cHit => some cHit.1
          | none => ((deepVideoSearch j 0).head?).map (fun c => c.1)) := by
  refine ⟨?_, ?_, ?_⟩
  · intro v depth h
    have hz : 11 - depth = 0 := by omega
    simp [deepVideoSearch, hz, deepSearchFuel]
  · intro depth pre post k v hk
    unfold deepVideoSearch
    cases hf : 11 - depth with
    | zero => rfl
    | succ fuel =>
        show deepSearchFuel (fuel + 1) (.obj (pre ++ (k, v) :: post)) =
          deepSearchFuel (fuel + 1) (.obj (pre ++ post))
        have hprops : ∀ p ∈ videoProps,
            jsLookup (pre ++ (k, v) :: post) p = jsLookup (pre ++ post) p := by
          intro p hp
          have : k ≠ p := by
            intro he
            rw [he] at hk
            rw [videoProps_not_excluded p hp] at hk
            exact absurd hk (by simp)
          exact jsLookup_skip pre post k p v this
        simp only [deepSearchFuel]
        congr 1
        · exact List.filterMap_congr fun p hp => by rw [hprops p hp]
        · rw [List.flatMap_append, List.flatMap_append]
          congr 1
          simp only [List.flatMap_cons]
          have hmem : lowerStr k ∈ excludedKeys := by simpa using hk
          simp [hmem]
  · intro j
    unfold pickNextDataUrl
    rw [find?_eq_head?_filter]
    exact pick_structure (deepVideoSearch j 0)

/-- Witness for the amended C7 theorem: the depth cutoff at a concrete
over-deep call and the excluded-key invariance at a `poster` entry
holding a would-be candidate. -/
theorem deepSearch_depth_exclusion_rank_witness :
    deepVideoSearch (.str "probe") 11 = []
    ∧ deepVideoSearch (.obj [("poster", .str "https://cf-st.sc-cdn.net/bad.mp4")]) 3 =
        deepVideoSearch (.obj []) 3 :=
  ⟨deepSearch_depth_exclusion_rank.1 (.str "probe") 11 (by decide),
   deepSearch_depth_exclusion_rank.2.1 3 [] [] "poster"
     (.str "https://cf-st.sc-cdn.net/bad.mp4") (by decide)⟩

/-- Every stories tile is a story tile and not a profile tile or a
marker. -/
theorem storiesMapper_shape (u : String) (e : Elem) (t : Tile)
    (h : storiesMapper u e = some t) :
    t.isProfile = false ∧ t.isStory = true ∧ t.isVideoArray = false := by
  unfold storiesMapper at h
  repeat' (first | split at h | simp only [] at h)
  all_goals first
    | exact Option.noConfusion h
    | (rw [← Option.some.inj h]; exact ⟨rfl, rfl, rfl⟩)

/-- Every tile of the shared `VideoObject` builder has all flags off. -/
theorem spotlightVideoTile_shape (u : String) (kvs : List (String × JsValue)) (t : Tile)
    (h : spotlightVideoTile u kvs = .ok t) :
    t.isProfile = false ∧ t.isStory = false ∧ t.isVideoArray = false := by
  unfold spotlightVideoTile at h
  split at h
  · exact absurd h (by simp)
  · rw [show t = _ from (Except.ok.injEq _ _).mp h.symm]
    exact ⟨rfl, rfl, rfl⟩

/-- Every spotlight tile has the profile and story flags off, and a
marker tile has neither user nor description. -/
theorem spotlightMapper_shape (u : String) (e : Elem) (t : Tile)
    (h : spotlightMapper u e = some t) :
    (t.isProfile = false ∧ t.isStory = false)
    ∧ (t.isVideoArray = true → t.user = none ∧ t.description = none) := by
  unfold spotlightMapper at h
  repeat' (first | split at h | simp only [] at h)
  all_goals try exact Option.noConfusion h
  · -- single VideoObject branch
    rename_i t' hok
    have hs := spotlightVideoTile_shape u _ t' hok
    rw [← Option.some.inj h]
    exact ⟨⟨hs.1, hs.2.1⟩, fun hva => absurd (hs.2.2 ▸ hva) (by simp)⟩
  · -- array marker branch
    rw [← Option.some.inj h]
    exact ⟨⟨rfl, rfl⟩, fun _ => ⟨rfl, rfl⟩⟩
  · -- DOM branch
    rw [← Option.some.inj h]
    exact ⟨⟨rfl, rfl⟩, fun hva => absurd hva (by simp)⟩

/-- Every lenses tile has all flags off. -/
theorem lensesMapper_shape (u : String) (e : Elem) (t : Tile)
    (h : lensesMapper u e = some t) :
    t.isProfile = false ∧ t.isStory = false ∧ t.isVideoArray = false := by
  unfold lensesMapper at h
  simp only [] at h
  rw [← Option.some.inj h]
  exact ⟨rfl, rfl, rfl⟩

/-- Every tagged tile has all flags off. -/
theorem taggedMapper_shape (u : String) (e : Elem) (t : Tile)
    (h : taggedMapper u e = some t) :
    t.isProfile = false ∧ t.isStory = false ∧ t.isVideoArray = false := by
  unfold taggedMapper taggedScriptTile at h
  repeat' (first | split at h | simp only [] at h)
  all_goals first
    | exact Option.noConfusion h
    | (rw [← Option.some.inj h]; exact ⟨rfl, rfl, rfl⟩)

/-- Every related tile is a profile tile and not a story tile or a
marker. -/
theorem relatedMapper_shape (u : String) (e : Elem) (t : Tile)
    (h : relatedMapper u e = some t) :
    t.isProfile = true ∧ t.isStory = false ∧ t.isVideoArray = false := by
  unfold relatedMapper at h
  repeat' (first | split at h | simp only [] at h)
  all_goals first
    | exact Option.noConfusion h
    | (rw [← Option.some.inj h]; exact ⟨rfl, rfl, rfl⟩)

/-- No mapper emits a tile that is both a profile and a story tile, and
only the spotlight array marker — which carries neither user nor
description and has both flags off — is a marker. -/
theorem mapper_flags (cat : Category) (u : String) (e : Elem) (t : Tile)
    (h : mapperFor cat u e = some t) :
    (¬(t.isProfile = true ∧ t.isStory = true))
    ∧ (t.isVideoArray = true →
        t.user = none ∧ t.description = none ∧ t.isProfile = false ∧ t.isStory = false) := by
  cases cat with
  | stories =>
      have hs := storiesMapper_shape u e t h
      exact ⟨fun hb => by simp [hs.1] at hb, fun hva => by simp [hs.2.2] at hva⟩
  | spotlight =>
      have hs := spotlightMapper_shape u e t h
      exact ⟨fun hb => by simp [hs.1.1] at hb,
        fun hva => ⟨(hs.2 hva).1, (hs.2 hva).2, hs.1.1, hs.1.2⟩⟩
  | lenses =>
      have hs := lensesMapper_shape u e t h
      exact ⟨fun hb => by simp [hs.1] at hb, fun hva => by simp [hs.2.2] at hva⟩
  | tagged =>
      have hs := taggedMapper_shape u e t h
      exact ⟨fun hb => by simp [hs.1] at hb, fun hva => by simp [hs.2.2] at hva⟩
  | related =>
      have hs := relatedMapper_shape u e t h
      exact ⟨fun hb => by simp [hs.2.1] at hb, fun hva => by simp [hs.2.2] at hva⟩

/-- A tile passing the validity filter and carrying at most one of the
two flags satisfies the per-category invariant. -/
theorem tileKeep_invariant (t : Tile) (hk : tileKeep t = true)
    (hnb : ¬(t.isProfile = true ∧ t.isStory = true)) : tileInvariant t := by
  unfold tileKeep at hk
  unfold tileInvariant
  by_cases hp : t.isProfile = true <;> by_cases hs : t.isStory = true <;> simp_all

/-- After the validity filter no `_isVideoArray` marker survives. -/
theorem data_no_markers (cat : Category) (u : String) (elems : List Elem) :
    ((elems.filterMap (mapperFor cat u)).filter tileKeep).filter
      (fun t => t.isVideoArray) = [] := by
  rw [List.filter_eq_nil_iff]
  intro t ht hva
  have hmf := List.mem_filter.mp ht
  have hkeep := hmf.2
  obtain ⟨e, _, hmap⟩ := List.mem_filterMap.mp hmf.1
  obtain ⟨hu, hd, hp, hs⟩ := (mapper_flags cat u e t hmap).2 hva
  rw [tileKeep, hp, hs] at hkeep
  simp [hu, hd, jsOptTruthy] at hkeep

/-- With no marker present, the video-array step passes the data through
unchanged. -/
theorem processVideoArrays_no_markers (u : String) (data : List Tile)
    (h : data.filter (fun t => t.isVideoArray) = []) :
    processVideoArrays u data = .ok data := by
  unfold processVideoArrays
  rw [h]
  rfl

/-- Dedup only drops tiles. -/
theorem dedupByKey_subset {t : Tile} :
    ∀ (l : List Tile) (seen : List String), t ∈ dedupByKey l seen → t ∈ l := by
  intro l
  induction l with
  | nil => intro seen h; exact absurd h (by simp [dedupByKey])
  | cons a rest ih =>
      intro seen h
      unfold dedupByKey at h
      split at h
      · exact List.mem_cons_of_mem a (ih _ h)
      · rcases List.mem_cons.mp h with h1 | h1
        · rw [h1]; exact List.mem_cons_self a rest
        · exact List.mem_cons_of_mem a (ih _ h1)

/-- Claim C2: every tile emitted by the normalizer, for every category
and every input document, satisfies the per-category required-field
invariant — profile tiles have a truthy user, story tiles a truthy user
and description, all other tiles a truthy user or description (a bare
thumbnail is never enough). -/
theorem tab_normalizer_tile_invariants (cat : Category) (u : String) (elems : List Elem)
    (out : List Tile) (t : Tile)
    (hout : fetchTabContent cat u elems = .ok out) (ht : t ∈ out) :
    tileInvariant t := by
  unfold fetchTabContent at hout
  simp only [] at hout
  rw [processVideoArrays_no_markers u _ (data_no_markers cat u elems)] at hout
  have hout2 : (if cat = Category.tagged then
      taggedPost u ((elems.filterMap (mapperFor cat u)).filter tileKeep)
    else (elems.filterMap (mapperFor cat u)).filter tileKeep) = out := by
    simpa using hout
  have htd : t ∈ (elems.filterMap (mapperFor cat u)).filter tileKeep := by
    rw [← hout2] at ht
    by_cases hc : cat = Category.tagged
    · rw [if_pos hc] at ht
      exact List.mem_of_mem_filter (dedupByKey_subset _ _ ht)
    · rwa [if_neg hc] at ht
  have hmf := List.mem_filter.mp htd
  obtain ⟨e, _, hmap⟩ := List.mem_filterMap.mp hmf.1
  exact tileKeep_invariant t hmf.2 (mapper_flags cat u e t hmap).1

/-- Witness for C2: the tile the lenses pipeline emits for a concrete
unlock anchor satisfies the invariant. -/
theorem tab_normalizer_tile_invariants_witness : tileInvariant lensTileOut :=
  tab_normalizer_tile_invariants Category.lenses "alice" [lensElem]
    [lensTileOut] lensTileOut rfl (by simp)

end SnapClone
